import Mathlib

set_option autoImplicit false

namespace CalAssistant

/-!
Shallow embedding of the cal-assistant orchestration core
(`src/unnamed/part_015` .. `part_019`, `src/lib/google/calendar.ts`,
`src/lib/utils/timezone.ts`, `src/app/api/chat/route.ts`).

Timestamps are modelled as natural numbers: seconds since
1970-01-01T00:00:00 on the user's wall clock, treated as a fixed-offset
clock (the source delegates timezone conversion to date-fns-tz; daylight
saving irregularities of the underlying IANA zone are outside the model).
The day number of a timestamp is `t / 86400`; 1970-01-01 was a Thursday.
-/

def secondsPerDay : Nat := 86400

/-- Gregorian leap-year test. -/
def isLeapYear (y : Nat) : Bool :=
  y % 4 = 0 && (y % 100 != 0 || y % 400 = 0)

/-- Number of days in month `m` (1-12) of year `y`. -/
def daysInMonth (y m : Nat) : Nat :=
  if m = 1 then 31 else if m = 2 then (if isLeapYear y then 29 else 28)
  else if m = 3 then 31 else if m = 4 then 30 else if m = 5 then 31
  else if m = 6 then 30 else if m = 7 then 31 else if m = 8 then 31
  else if m = 9 then 30 else if m = 10 then 31 else if m = 11 then 30
  else 31

/-- Day number (days since 1970-01-01) of a Gregorian civil date.
Valid for dates from year 1 onward that land on or after 1970-01-01,
which covers everything the assistant handles. -/
def daysFromCivil (y m d : Nat) : Nat :=
  let y' := if m ≤ 2 then y - 1 else y
  let era := y' / 400
  let yoe := y' % 400
  let mp := (m + 9) % 12
  let doy := (153 * mp + 2) / 5 + d - 1
  let doe := yoe * 365 + yoe / 4 - yoe / 100 + doy
  era * 146097 + doe - 719468

/-- Civil date `(year, month, day)` of a day number (inverse of
`daysFromCivil` on the supported range). -/
def civilFromDays (z : Nat) : Nat × Nat × Nat :=
  let zShift := z + 719468
  let era := zShift / 146097
  let doe := zShift % 146097
  let yoe := (doe - doe / 1460 + doe / 36524 - doe / 146096) / 365
  let y := yoe + era * 400
  let doy := doe - (365 * yoe + yoe / 4 - yoe / 100)
  let mp := (5 * doy + 2) / 153
  let d := doy - (153 * mp + 2) / 5 + 1
  let m := if mp < 10 then mp + 3 else mp - 9
  (if m ≤ 2 then y + 1 else y, m, d)

/-- Left-pad a numeral to two digits. -/
def pad2 (n : Nat) : String :=
  if n < 10 then "0" ++ Nat.repr n else Nat.repr n

/-- Left-pad a numeral to four digits. -/
def pad4 (n : Nat) : String :=
  if n < 10 then "000" ++ Nat.repr n
  else if n < 100 then "00" ++ Nat.repr n
  else if n < 1000 then "0" ++ Nat.repr n
  else Nat.repr n

/-- `formatDate` from `date-info`: YYYY-MM-DD of a timestamp (the source
uses the en-CA locale rendering in the user timezone). -/
def formatDate (t : Nat) : String :=
  let c := civilFromDays (t / secondsPerDay)
  pad4 c.1 ++ "-" ++ pad2 c.2.1 ++ "-" ++ pad2 c.2.2

def weekdayLongNames : List String :=
  ["Sunday", "Monday", "Tuesday", "Wednesday", "Thursday", "Friday", "Saturday"]

/-- `getDayOfWeek` from `date-info`: 0 = Sunday .. 6 = Saturday
(1970-01-01, day number 0, was a Thursday). -/
def getDayOfWeek (t : Nat) : Nat :=
  (t / secondsPerDay + 4) % 7

/-- `getDayName` from `date-info`: long weekday name of a timestamp. -/
def getDayName (t : Nat) : String :=
  weekdayLongNames.getD (getDayOfWeek t) "Sunday"

/-- `addDaysInUserTimezone` from `timezone.ts`: add whole calendar days
(in the fixed-offset model a calendar day is 86400 seconds). -/
def addDaysInUserTimezone (t : Nat) (k : Nat) : Nat :=
  t + k * secondsPerDay

/-- `startOfDayInUserTimezone` from `timezone.ts`: 00:00:00 of the day. -/
def startOfDayInUserTimezone (t : Nat) : Nat :=
  t / secondsPerDay * secondsPerDay

/-- `endOfDayInUserTimezone` from `timezone.ts`: 23:59:59 of the day. -/
def endOfDayInUserTimezone (t : Nat) : Nat :=
  t / secondsPerDay * secondsPerDay + (secondsPerDay - 1)

/-! ## `date-info`: the Temporal Resolver (`getDateInfo`) -/

def businessDayNames : List String :=
  ["Monday", "Tuesday", "Wednesday", "Thursday", "Friday"]

/-- `formatBusinessWeek` from `date-info`: five lines
"DayName = YYYY-MM-DD" starting at a Monday. -/
def formatBusinessWeek (startMonday : Nat) : String :=
  String.intercalate "\n" <| (List.range 5).map fun i =>
    businessDayNames.getD i "" ++ " = " ++ formatDate (addDaysInUserTimezone startMonday i)

/-- Monday used by the "this/upcoming/coming week" branch of `getDateInfo`:
Sunday rolls forward one day, Saturday two days, otherwise the most
recent Monday. -/
def thisWeekMonday (now : Nat) : Nat :=
  let currentDay := getDayOfWeek now
  if currentDay = 0 then addDaysInUserTimezone now 1
  else if currentDay = 6 then addDaysInUserTimezone now 2
  else now - (currentDay - 1) * secondsPerDay

/-- The "this/upcoming/coming week" branch of `getDateInfo`. -/
def getDateInfo_thisWeek (now : Nat) : String :=
  let monday := thisWeekMonday now
  let friday := addDaysInUserTimezone monday 4
  "This week (business days):\n" ++ formatBusinessWeek monday ++
    "\n\n⚠️ TO GET CALENDAR EVENTS FOR THIS WEEK, USE THESE EXACT DATES:\nstart_date: \"" ++
    formatDate monday ++ "\"\nend_date: \"" ++ formatDate friday ++ "\""

/-- First business day computed by the "next week" branch of
`getDateInfo`: `daysUntilNextMonday = currentDay == 0 ? 1 : 8 - currentDay`. -/
def nextWeekMonday (now : Nat) : Nat :=
  let currentDay := getDayOfWeek now
  let daysUntilNextMonday := if currentDay = 0 then 1 else 8 - currentDay
  addDaysInUserTimezone now daysUntilNextMonday

/-- Last business day of the "next week" branch: the Monday plus 4 days. -/
def nextWeekFriday (now : Nat) : Nat :=
  addDaysInUserTimezone (nextWeekMonday now) 4

/-- The "next week" branch of `getDateInfo`. -/
def getDateInfo_nextWeek (now : Nat) : String :=
  "Next week (business days):\n" ++ formatBusinessWeek (nextWeekMonday now) ++
    "\n\n⚠️ TO GET CALENDAR EVENTS FOR NEXT WEEK, USE THESE EXACT DATES:\nstart_date: \"" ++
    formatDate (nextWeekMonday now) ++ "\"\nend_date: \"" ++
    formatDate (nextWeekFriday now) ++ "\""

/-- The single-date output of `getDateInfo` (chrono fallthrough, no range). -/
def getDateInfo_singleDate (startDate : Nat) : String :=
  let dayName := getDayName startDate
  let isoDate := formatDate startDate
  isoDate ++ " is a " ++ dayName ++
    "\n\nTo use this date in calendar operations, use: \"" ++ isoDate ++ "\""

/-- The date-range output of `getDateInfo` (chrono fallthrough with an end). -/
def getDateInfo_dateRange (startDate endDate : Nat) : String :=
  "Date range: " ++ formatDate startDate ++ " to " ++ formatDate endDate

/-- The no-parse fallback output of `getDateInfo`. -/
def getDateInfo_fallback (now : Nat) : String :=
  "Current date: " ++ getDayName now ++ ", " ++ formatDate now

/-! ## Character and string helpers -/

/-- Numeric value of an ASCII digit character. -/
def digitVal (c : Char) : Nat := c.toNat - 48

/-- Value of a two-digit numeral. -/
def twoDigits (a b : Char) : Nat := 10 * digitVal a + digitVal b

/-- Value of a four-digit numeral. -/
def fourDigits (a b c d : Char) : Nat :=
  1000 * digitVal a + 100 * digitVal b + 10 * digitVal c + digitVal d

/-- Lowercase a string (ASCII, as the source's `toLowerCase` on its data). -/
def toLowerStr (s : String) : String := String.mk (s.data.map Char.toLower)

/-- JavaScript word character (`\w`): ASCII letter, digit, or underscore. -/
def isWordChar (c : Char) : Bool := c.isAlpha || c.isDigit || c == '_'

/-- Case-insensitive prefix test; the pattern `p` is given lowercase. -/
def ciPrefix : List Char → List Char → Bool
  | [], _ => true
  | _ :: _, [] => false
  | p :: ps, c :: cs => p == c.toLower && ciPrefix ps cs

/-- `w` occurs at the head of `cs` with a word boundary after it. -/
def hasWordAt (w : List Char) (cs : List Char) : Bool :=
  ciPrefix w cs &&
    (match cs.drop w.length with
      | [] => true
      | c :: _ => !isWordChar c)

/-- Scan for any of the words `ws` occurring with word boundaries on both
sides (`prevWord` records whether the previous character was a word
character). This is the semantics of `/\b(w1|w2|...)\b/i.test`. -/
def containsWordAux (ws : List (List Char)) : Bool → List Char → Bool
  | _, [] => false
  | prevWord, c :: rest =>
    (!prevWord && ws.any fun w => hasWordAt w (c :: rest)) ||
      containsWordAux ws (isWordChar c) rest

/-- `/\b(w1|...|wn)\b/i.test s` for lowercase word list `ws`. -/
def containsAnyWord (ws : List String) (s : String) : Bool :=
  containsWordAux (ws.map fun w => w.data) false s.data

/-- Plain substring containment (`String.prototype.includes`). -/
def containsSub (sub : List Char) : List Char → Bool
  | [] => sub.isEmpty
  | c :: cs => sub.isPrefixOf (c :: cs) || containsSub sub cs

/-! ## `date-validator`: the Verification Record ledger -/

/-- The Verification Record ledger (`verifiedDates` in `date-validator`):
ISO date mapped to the weekday name recorded for it, newest entry first
(object assignment overwrites, and lookup takes the first hit). -/
abbrev DateVerificationCache := List (String × String)

/-- `recordDateVerification`: record a date's weekday in the ledger. -/
def recordDateVerification (cache : DateVerificationCache) (isoDate dayOfWeek : String) :
    DateVerificationCache :=
  (isoDate, dayOfWeek) :: cache

/-- `isDateVerified`: the ledger has an entry for the date. -/
def isDateVerified (cache : DateVerificationCache) (isoDate : String) : Bool :=
  (cache.find? fun p => p.1 == isoDate).isSome

/-- Outcome shape shared by `validateEventDate`, `validateToolCall` and
`validateActionCompleted`: `{ valid: boolean; error?: string }`. -/
structure ValidationResult where
  valid : Bool
  error : Option String := none
  deriving Repr, DecidableEq

/-- The anchored date-prefix regex `^(\d{4}-\d{2}-\d{2})` of
`validateEventDate`; returns the captured date when it matches. -/
def datePrefixMatch (s : String) : Option String :=
  match s.data with
  | y1 :: y2 :: y3 :: y4 :: a :: m1 :: m2 :: b :: d1 :: d2 :: _ =>
    if y1.isDigit && y2.isDigit && y3.isDigit && y4.isDigit && a == '-' &&
        m1.isDigit && m2.isDigit && b == '-' && d1.isDigit && d2.isDigit then
      some (String.mk [y1, y2, y3, y4, a, m1, m2, b, d1, d2])
    else none
  | _ => none

/-- `dayNamePattern` of `date-validator`:
`/\b(monday|tuesday|wednesday|thursday|friday|saturday|sunday)\b/i`. -/
def weekdayWordList : List String :=
  ["monday", "tuesday", "wednesday", "thursday", "friday", "saturday", "sunday"]

/-- `dayNamePattern.test userRequestedDay`. -/
def dayNamePatternTest (s : String) : Bool := containsAnyWord weekdayWordList s

/-- The rejection text `validateEventDate` produces for an unverified date
(with the offending ISO date and the user text interpolated). -/
def unverifiedDateError (isoDate userRequestedDay : String) : String :=
  "🚨 CRITICAL ERROR: You are trying to create an event on " ++ isoDate ++
    ", but you have NOT verified what day of the week this date is.\n\nThe user said: \"" ++
    userRequestedDay ++
    "\"\n\nREQUIRED STEPS:\n1. Call get_date_info(\"" ++ userRequestedDay ++
    "\") to find out the exact ISO date\n2. Use the EXACT date returned by that tool\n3. Do NOT guess or calculate dates yourself\n\nYour training data about dates is INCORRECT. You MUST use the tool first."

/-- `validateEventDate` from `date-validator`: reject creation on a date
the ledger has not verified when the user named a weekday; an existing
ledger entry passes whether or not its weekday agrees (the weekday
comparison, when it fails, falls through to the trailing valid return). -/
def validateEventDate (cache : DateVerificationCache) (isoDateTime : String)
    (userRequestedDay : Option String) : ValidationResult :=
  match datePrefixMatch isoDateTime with
  | none => ⟨false, some ("Invalid datetime format: " ++ isoDateTime)⟩
  | some isoDate =>
    match userRequestedDay with
    | some day =>
      if dayNamePatternTest day then
        if !isDateVerified cache isoDate then
          ⟨false, some (unverifiedDateError isoDate day)⟩
        else
          match cache.find? fun p => p.1 == isoDate with
          | some verification =>
            if containsSub ((toLowerStr verification.2).take 3).data (toLowerStr day).data then
              ⟨true, none⟩
            else
              ⟨true, none⟩
          | none => ⟨true, none⟩
      else ⟨true, none⟩
    | none => ⟨true, none⟩

/-! ## `date-enforcer`: `validateToolCall` -/

/-- JavaScript truthiness for an optional string argument: `undefined`
and the empty string both count as absent. -/
def presentStr : Option String → Option String
  | some s => if s == "" then none else some s
  | none => none

/-- The validator's regex `^\d{4}-\d{2}-\d{2}T\d{2}:\d{2}:\d{2}$` over a
character list. -/
def isoPatternList : List Char → Bool
  | [y1, y2, y3, y4, a, m1, m2, b, d1, d2, t, h1, h2, c1, n1, n2, c2, x1, x2] =>
    y1.isDigit && y2.isDigit && y3.isDigit && y4.isDigit && a == '-' &&
      m1.isDigit && m2.isDigit && b == '-' && d1.isDigit && d2.isDigit &&
      t == 'T' && h1.isDigit && h2.isDigit && c1 == ':' && n1.isDigit && n2.isDigit &&
      c2 == ':' && x1.isDigit && x2.isDigit
  | _ => false

/-- `isoPattern.test` on a string. -/
def isoPattern (s : String) : Bool := isoPatternList s.data

/-- Timestamp of a strict `YYYY-MM-DDTHH:MM:SS` string in seconds on the
user's wall clock; `none` when the shape or a field range is invalid
(JavaScript date parsing yields an invalid date there). -/
def parseTimestampList : List Char → Option Nat
  | [y1, y2, y3, y4, a, m1, m2, b, d1, d2, t, h1, h2, c1, n1, n2, c2, x1, x2] =>
    if isoPatternList [y1, y2, y3, y4, a, m1, m2, b, d1, d2, t, h1, h2, c1, n1, n2, c2, x1, x2] then
      let y := fourDigits y1 y2 y3 y4
      let mo := twoDigits m1 m2
      let dy := twoDigits d1 d2
      let h := twoDigits h1 h2
      let mi := twoDigits n1 n2
      let sec := twoDigits x1 x2
      if 1 ≤ mo && mo ≤ 12 && 1 ≤ dy && dy ≤ daysInMonth y mo &&
          h ≤ 23 && mi ≤ 59 && sec ≤ 59 then
        some (daysFromCivil y mo dy * secondsPerDay + h * 3600 + mi * 60 + sec)
      else none
    else none
  | _ => none

/-- `parseInUserTimezone` from `timezone.ts` on the strict pattern
(fixed-offset model of the user timezone). -/
def parseInUserTimezone (s : String) : Option Nat := parseTimestampList s.data

/-- JavaScript comparison `new Date(e) <= new Date(s)`: false whenever
either side is an invalid date (NaN comparisons are false). -/
def jsDateLe (e s : String) : Bool :=
  match parseInUserTimezone e, parseInUserTimezone s with
  | some te, some ts => decide (te ≤ ts)
  | _, _ => false

/-- Inverted-range rejection text of the `create_calendar_event` branch
of `validateToolCall` (echoes both literal values). -/
def invalidTimeRangeCreateError (startTime endTime : String) : String :=
  "❌ INVALID TIME RANGE: End time (" ++ endTime ++ ") must be AFTER start time (" ++
    startTime ++
    "). You cannot create an event that ends before or at the same time it starts. Please fix the times."

/-- Inverted-range rejection text of the `update_calendar_event` branch
of `validateToolCall` (echoes both literal values). -/
def invalidTimeRangeUpdateError (startTime endTime : String) : String :=
  "❌ INVALID TIME RANGE: End time (" ++ endTime ++ ") must be AFTER start time (" ++
    startTime ++ ")."

/-- Tool-call arguments (the fields of `Record<string, unknown>` the
embedded code reads; absent fields are `none`). -/
structure ToolInput where
  start_time : Option String := none
  end_time : Option String := none
  start_date : Option String := none
  end_date : Option String := none
  query : Option String := none
  event_id : Option String := none
  email : Option String := none
  deriving Repr, DecidableEq

/-- `validateToolCall` from `date-enforcer`: format checks for
`create_calendar_event` and `update_calendar_event` plus chronological
ordering when both instants are present; `check_availability` checks
presence and format only. The duration warnings of the source are
console-only and have no effect on the result. -/
def validateToolCall (toolName : String) (toolInput : ToolInput) : ValidationResult :=
  if toolName == "create_calendar_event" then
    match presentStr toolInput.start_time, presentStr toolInput.end_time with
    | some startTime, some endTime =>
      if !isoPattern startTime then
        ⟨false, some ("start_time must be in ISO format (YYYY-MM-DDTHH:MM:SS). Got: " ++
          startTime ++ ". Use get_date_info to get the correct date format.")⟩
      else if !isoPattern endTime then
        ⟨false, some ("end_time must be in ISO format (YYYY-MM-DDTHH:MM:SS). Got: " ++ endTime)⟩
      else if jsDateLe endTime startTime then
        ⟨false, some (invalidTimeRangeCreateError startTime endTime)⟩
      else ⟨true, none⟩
    | _, _ => ⟨false, some "create_calendar_event requires both start_time and end_time"⟩
  else if toolName == "update_calendar_event" then
    match presentStr toolInput.start_time, presentStr toolInput.end_time with
    | some startTime, some endTime =>
      if !isoPattern startTime then
        ⟨false, some ("start_time must be in ISO format (YYYY-MM-DDTHH:MM:SS). Got: " ++ startTime)⟩
      else if !isoPattern endTime then
        ⟨false, some ("end_time must be in ISO format (YYYY-MM-DDTHH:MM:SS). Got: " ++ endTime)⟩
      else if jsDateLe endTime startTime then
        ⟨false, some (invalidTimeRangeUpdateError startTime endTime)⟩
      else ⟨true, none⟩
    | some startTime, none =>
      if !isoPattern startTime then
        ⟨false, some ("start_time must be in ISO format (YYYY-MM-DDTHH:MM:SS). Got: " ++ startTime)⟩
      else ⟨true, none⟩
    | none, some endTime =>
      if !isoPattern endTime then
        ⟨false, some ("end_time must be in ISO format (YYYY-MM-DDTHH:MM:SS). Got: " ++ endTime)⟩
      else ⟨true, none⟩
    | none, none => ⟨true, none⟩
  else if toolName == "check_availability" then
    match presentStr toolInput.start_time, presentStr toolInput.end_time with
    | some startTime, some endTime =>
      if !isoPattern startTime || !isoPattern endTime then
        ⟨false, some "Times must be in ISO format (YYYY-MM-DDTHH:MM:SS). Use get_date_info to get correct dates."⟩
      else ⟨true, none⟩
    | _, _ => ⟨false, some "check_availability requires both start_time and end_time"⟩
  else ⟨true, none⟩

/-! ## `action-validator`: `validateActionCompleted` -/

/-- `REQUIRED_TOOLS` from `action-validator`: the documented tool names
required for each action type. -/
def REQUIRED_TOOLS (action : String) : List String :=
  if action == "create" then ["create_calendar_event"]
  else if action == "update" then ["get_calendar_events", "update_calendar_event"]
  else if action == "delete" then ["get_calendar_events", "delete_calendar_event"]
  else if action == "attendees" then ["get_calendar_events", "add_attendee", "remove_attendee"]
  else if action == "read" then ["get_calendar_events", "get_calendar_stats", "check_availability"]
  else []

/-- One scan step of the id-extraction regex `/\[ID: ([^\]]+)\]/g` over a
tool-result text (fuel bounds the scan by the text length; every step
consumes at least one character). -/
def extractIdsAux : Nat → List Char → List String
  | 0, _ => []
  | _ + 1, [] => []
  | fuel + 1, c :: rest =>
    if ("[ID: ".data).isPrefixOf (c :: rest) then
      let after := (c :: rest).drop 5
      let captured := after.takeWhile fun ch => ch != ']'
      match after.drop captured.length with
      | br :: rest2 =>
        if decide (captured.length > 0) && br == ']' then
          String.mk captured :: extractIdsAux fuel rest2
        else extractIdsAux fuel rest
      | [] => extractIdsAux fuel rest
    else extractIdsAux fuel rest

/-- All event-id markers `[ID: ...]` embedded in a tool-result text. -/
def extractEventIds (s : String) : List String := extractIdsAux s.data.length s.data

/-- Two-step retry message of the update branch (no usable event ids). -/
def updateTwoStepError : String :=
  "❌ CRITICAL ERROR: User requested to UPDATE calendar events, but you did NOT call update_calendar_event.\n\n🚨 TWO-STEP PROCESS REQUIRED 🚨\n\nSTEP 1: Call get_calendar_events to fetch the events and get their IDs\nSTEP 2: For EACH event, call update_calendar_event with the REAL event ID (not a made-up ID!)\n\nDO NOT:\n- Make up event IDs like \"event_001\" or \"event_002\"\n- Skip get_calendar_events\n- Say you updated without actually calling the tools\n\nYOU MUST CALL THE ACTUAL TOOLS!"

/-- The literal-ids hint interpolated into the second update message. -/
def eventIdsHint (ids : List String) : String :=
  "\n\n🎯 EVENTS YOU NEED TO UPDATE (USE THESE EXACT IDs):\n" ++
    String.intercalate "\n" (ids.map fun id =>
      "- Event ID: \"" ++ id ++ "\" → Call update_calendar_event(event_id=\"" ++ id ++
        "\", start_time=\"...\", end_time=\"...\")") ++
    "\n\n⚠️ DO NOT MAKE UP EVENT IDs! Use the EXACT IDs shown above."

/-- Retry message of the update branch when literal ids are available. -/
def updateUseIdsError (ids : List String) : String :=
  "❌ CRITICAL ERROR: User requested to UPDATE calendar events, but you did NOT call update_calendar_event.\n\n🚨 YOU MUST CALL update_calendar_event TOOL NOW 🚨\n" ++
    eventIdsHint ids ++
    "\n\nSTOP saying you updated it. ACTUALLY CALL THE TOOL using the exact event IDs shown above!"

/-- Retry message of the delete branch. -/
def deleteNotCalledError : String :=
  "User requested to DELETE/CANCEL a calendar event, but you did NOT call delete_calendar_event. You MUST actually delete the event, not just say you did it."

/-- Retry message of the create branch. -/
def createNotCalledError : String :=
  "User requested to CREATE/SCHEDULE a calendar event, but you did NOT call create_calendar_event. You MUST actually create the event, not just say you did it."

/-- `validateActionCompleted` from `action-validator`. The source looks
up `REQUIRED_TOOLS[action]` into a variable it never uses; the update
branch checks only that `update_calendar_event` was called (choosing
between two error messages via the event-id extraction and the
`get_calendar_events` history), the "move everything" sub-branch is
empty, and no branch inspects the attendees classification. The unused
`userMessage` parameter mirrors the source signature. -/
def validateActionCompleted (action : Option String) (toolsCalled : List String)
    (userMessage : Option String) (lastToolResult : Option String) : ValidationResult :=
  match action with
  | none => ⟨true, none⟩
  | some act =>
    if act == "read" then ⟨true, none⟩
    else
      let updateTools := ["update_calendar_event"]
      let deleteTools := ["delete_calendar_event"]
      let createTools := ["create_calendar_event"]
      if act == "update" &&
          (toolsCalled.filter fun t => updateTools.contains t).length == 0 then
        let ids := match lastToolResult with
          | some s => extractEventIds s
          | none => []
        let hasEventIds := decide (ids.length > 0)
        let hasCalledGetEvents := toolsCalled.contains "get_calendar_events"
        if !hasEventIds || !hasCalledGetEvents then ⟨false, some updateTwoStepError⟩
        else ⟨false, some (updateUseIdsError ids)⟩
      else if act == "delete" && !(toolsCalled.any fun t => deleteTools.contains t) then
        ⟨false, some deleteNotCalledError⟩
      else if act == "create" && !(toolsCalled.any fun t => createTools.contains t) then
        ⟨false, some createNotCalledError⟩
      else ⟨true, none⟩

/-! ## Calendar store model (`google/calendar.ts`, consumed as CRUD) -/

/-- An attendee record. -/
structure Attendee where
  email : String
  displayName : Option String := none
  responseStatus : Option String := none
  deriving Repr, DecidableEq

/-- A calendar event as the executor sees it: `startTime`/`endTime` model
`start.dateTime`/`end.dateTime` (absent for entries without a timed
instant). -/
structure CalendarEvent where
  id : String
  summary : String
  startTime : Option Nat := none
  endTime : Option Nat := none
  attendees : List Attendee := []
  htmlLink : Option String := none
  deriving Repr, DecidableEq

/-- `addEventAttendee` from `google/calendar.ts`: fetch the event, refuse
when the email is already on the attendee list (before any write is
issued), otherwise patch the attendee list. The store is the event list;
a missing id models the API's 404 throw. -/
def addEventAttendee (store : List CalendarEvent) (eventId email : String) :
    Except String (CalendarEvent × List CalendarEvent) :=
  match store.find? fun e => e.id == eventId with
  | none => Except.error ("Event not found: " ++ eventId)
  | some ev =>
    if ev.attendees.any fun a => a.email == email then
      Except.error ("Attendee " ++ email ++ " is already invited to this event")
    else
      let updated := { ev with attendees := ev.attendees ++ [{ email := email }] }
      Except.ok (updated, store.map fun e => if e.id == eventId then updated else e)

/-! ## Tool Executor (`executeToolCall`) -/

/-- `{ content, modifiedEvents }` returned by every executor branch. -/
structure ToolExecutionResult where
  content : String
  modifiedEvents : Bool
  deriving Repr, DecidableEq

/-- The executor's relative-date word list for `get_calendar_events`
arguments: `/\b(next|this|last|upcoming|coming|week|monday|...|sunday|tomorrow|yesterday)\b/`. -/
def relativeDateWords : List String :=
  ["next", "this", "last", "upcoming", "coming", "week", "monday", "tuesday", "wednesday",
    "thursday", "friday", "saturday", "sunday", "tomorrow", "yesterday"]

/-- `relativeDatePattern.test` on an (already lowercased) argument. -/
def relativeDatePatternTest (s : String) : Bool := containsAnyWord relativeDateWords s

/-- The relative-date rejection text of the `get_calendar_events` case
(returned as a plain result, instructing a `get_date_info` call first). -/
def relativeDateError : String :=
  "❌ ERROR: Cannot use relative date terms like \"next week\", \"this week\", \"Monday\", etc. in get_calendar_events.\n\n✅ REQUIRED: First call get_date_info tool with your relative date query (e.g., \"next week\", \"this Monday\") to get exact ISO dates, THEN call get_calendar_events with those exact dates."

/-- Match one of the weekday names case-insensitively at the head of
`cs` (the alternation `(Monday|...|Sunday)` of the recording regex);
the capture is the text as it appears. -/
def matchWeekdayAt (cs : List Char) : Option (String × List Char) :=
  match weekdayWordList.find? fun w => ciPrefix w.data cs with
  | some w => some (String.mk (cs.take w.length), cs.drop w.length)
  | none => none

/-- The lazy tail `.*?(Monday|...)` of the recording regex: earliest
weekday occurrence, never crossing a newline (`.` does not match `\n`). -/
def findWeekday : List Char → Option (String × List Char)
  | [] => none
  | c :: rest =>
    match matchWeekdayAt (c :: rest) with
    | some r => some r
    | none => if c == '\n' then none else findWeekday rest

/-- A date `\d{4}-\d{2}-\d{2}` at the current position. -/
def matchDateAt (cs : List Char) : Option (String × List Char) :=
  match cs with
  | y1 :: y2 :: y3 :: y4 :: a :: m1 :: m2 :: b :: d1 :: d2 :: rest =>
    if y1.isDigit && y2.isDigit && y3.isDigit && y4.isDigit && a == '-' &&
        m1.isDigit && m2.isDigit && b == '-' && d1.isDigit && d2.isDigit then
      some (String.mk [y1, y2, y3, y4, a, m1, m2, b, d1, d2], rest)
    else none
  | _ => none

/-- Global scan of the recording regex
`/(\d{4}-\d{2}-\d{2}).*?(Monday|...|Sunday)/gi` over a tool-result text:
leftmost matches, resuming after each match. Fuel bounds the scan by the
text length; every step consumes at least one character. -/
def extractPairsAux : Nat → List Char → List (String × String)
  | 0, _ => []
  | _ + 1, [] => []
  | fuel + 1, c :: rest =>
    match matchDateAt (c :: rest) with
    | some (date, after) =>
      match findWeekday after with
      | some (day, after2) => (date, day) :: extractPairsAux fuel after2
      | none => extractPairsAux fuel rest
    | none => extractPairsAux fuel rest

/-- All `(isoDate, weekday)` pairs the recording regex finds in a text. -/
def extractDatePairs (s : String) : List (String × String) :=
  extractPairsAux s.data.length s.data

/-- The `get_date_info` case of `executeToolCall`: return the resolver
text and record every pair the recording regex finds in it. The resolver
text itself comes from the `getDateInfo` branch functions above. -/
def executeGetDateInfo (cache : DateVerificationCache) (result : String) :
    ToolExecutionResult × DateVerificationCache :=
  (⟨result, false⟩,
    (extractDatePairs result).foldl (fun c p => recordDateVerification c p.1 p.2) cache)

/-- Start instant of the `get_calendar_events` query range: a supplied
start_date (date-only strings, length at most 10, expanded to
`T00:00:00`), else the start of the current day. -/
def queryStartDate (input : ToolInput) (now : Nat) : Option Nat :=
  match presentStr input.start_date with
  | some dateStr =>
    if dateStr.length ≤ 10 then parseInUserTimezone (dateStr ++ "T00:00:00")
    else parseInUserTimezone dateStr
  | none => some (startOfDayInUserTimezone now)

/-- End instant of the `get_calendar_events` query range: a supplied
end_date (date-only strings expanded to `T23:59:59`), else 7 days after
the current instant. -/
def queryEndDate (input : ToolInput) (now : Nat) : Option Nat :=
  match presentStr input.end_date with
  | some dateStr =>
    if dateStr.length ≤ 10 then parseInUserTimezone (dateStr ++ "T23:59:59")
    else parseInUserTimezone dateStr
  | none => some (addDaysInUserTimezone now 7)

/-- Month names for the en-US long date rendering. -/
def monthLongNames : List String :=
  ["January", "February", "March", "April", "May", "June", "July", "August",
    "September", "October", "November", "December"]

/-- `formatTimeInUserTimezone` from `timezone.ts`: `h:mm a`. -/
def formatTimeInUserTimezone (t : Nat) : String :=
  let secs := t % secondsPerDay
  let h24 := secs / 3600
  let mi := secs % 3600 / 60
  let h12 := if h24 % 12 == 0 then 12 else h24 % 12
  Nat.repr h12 ++ ":" ++ pad2 mi ++ " " ++ (if h24 < 12 then "AM" else "PM")

/-- The `weekday, month day, year` en-US rendering used by the events
list. -/
def formatFullDate (t : Nat) : String :=
  let c := civilFromDays (t / secondsPerDay)
  getDayName t ++ ", " ++ monthLongNames.getD (c.2.1 - 1) "" ++ " " ++ Nat.repr c.2.2 ++
    ", " ++ Nat.repr c.1

/-- One summary line of the `get_calendar_events` result. -/
def eventSummary (e : CalendarEvent) : String :=
  match e.startTime, e.endTime with
  | some st, some et =>
    let attendeeList := String.intercalate ", " (e.attendees.map fun a => a.displayName.getD a.email)
    "- " ++ e.summary ++ " on " ++ formatFullDate st ++ " from " ++ formatTimeInUserTimezone st ++
      " to " ++ formatTimeInUserTimezone et ++
      (if attendeeList == "" then "" else " with " ++ attendeeList) ++ " [ID: " ++ e.id ++ "]"
  | _, _ =>
    "- " ++ e.summary ++ " (All day)" ++
      (if e.attendees.isEmpty then "" else " with " ++ Nat.repr e.attendees.length ++ " attendee(s)") ++
      " [ID: " ++ e.id ++ "]"

/-- The critical-instructions trailer of the events list result. -/
def eventsListInstructions : String :=
  "\n\n🚨 CRITICAL INSTRUCTIONS - READ CAREFULLY:\n1. When telling the user about these events, copy the EXACT day of week and date shown above\n2. DO NOT recalculate what day of week a date falls on - your training data is WRONG\n3. DO NOT reformat dates or change the day names\n4. If you say \"Monday, January 6\" in one sentence, do NOT later say \"Tuesday, January 6\" - they are the SAME date\n5. COPY AND PASTE the date strings above when presenting to the user\n\nNote: Use the event ID to update, delete, or manage attendees."

/-- The `get_calendar_events` case of `executeToolCall`. The store range
query (`getCalendarEvents`) is the external CRUD collaborator `fetch`;
a failed date parse surfaces as the caught store error. -/
def executeGetCalendarEvents (fetch : Nat → Nat → List CalendarEvent) (now : Nat)
    (input : ToolInput) : ToolExecutionResult :=
  let startDateStr := toLowerStr (input.start_date.getD "")
  let endDateStr := toLowerStr (input.end_date.getD "")
  if relativeDatePatternTest startDateStr || relativeDatePatternTest endDateStr then
    ⟨relativeDateError, false⟩
  else
    match queryStartDate input now, queryEndDate input now with
    | some startDate, some endDate =>
      let events := fetch startDate endDate
      if events.isEmpty then ⟨"No events found in the specified date range.", false⟩
      else
        ⟨"Found " ++ Nat.repr events.length ++ " events:\n" ++
          String.intercalate "\n" (events.map eventSummary) ++ eventsListInstructions, false⟩
    | _, _ => ⟨"Error executing get_calendar_events: Invalid time value", false⟩

/-- Conflict predicate of the `check_availability` case: an event lacking
a timed start or end is a full-day conflict; a timed event conflicts
exactly when `startTime < eventEnd && endTime > eventStart`. -/
def isConflict (startTime endTime : Nat) (event : CalendarEvent) : Bool :=
  match event.startTime, event.endTime with
  | some eventStart, some eventEnd =>
    decide (startTime < eventEnd) && decide (endTime > eventStart)
  | _, _ => true

/-- `Math.max` over the conflicting events' end instants (an absent end
falls back to the end of the day): the suggested alternative start. -/
def suggestedTime (conflicts : List CalendarEvent) (dayEnd : Nat) : Nat :=
  (conflicts.map fun c => c.endTime.getD dayEnd).foldl max 0

/-- Decision of the `check_availability` case. -/
inductive AvailabilityOutcome where
  | available
  | conflict (conflicts : List CalendarEvent) (suggested : Nat)
  deriving Repr, DecidableEq

/-- Decision logic of the `check_availability` case of `executeToolCall`
(the surrounding result text renders these fields). -/
def checkAvailability (events : List CalendarEvent) (startTime endTime dayEnd : Nat) :
    AvailabilityOutcome :=
  let conflicts := events.filter (isConflict startTime endTime)
  if conflicts.isEmpty then AvailabilityOutcome.available
  else AvailabilityOutcome.conflict conflicts (suggestedTime conflicts dayEnd)

/-- The `add_attendee` case of `executeToolCall`, including the
executor's surrounding catch: a thrown store error becomes a plain
result with `modifiedEvents: false` and the store untouched. -/
def executeAddAttendee (store : List CalendarEvent) (eventId email : String) :
    ToolExecutionResult × List CalendarEvent :=
  match addEventAttendee store eventId email with
  | Except.ok (updatedEvent, store2) =>
    let emails := String.intercalate ", " (updatedEvent.attendees.map fun a => a.email)
    (⟨"✅ Added " ++ email ++ " to \"" ++ updatedEvent.summary ++ "\". Current attendees: " ++
        (if emails == "" then "none" else emails) ++
        (match updatedEvent.htmlLink with
          | some l => "\nView in Google Calendar: " ++ l
          | none => ""), true⟩, store2)
  | Except.error e => (⟨"Error executing add_attendee: " ++ e, false⟩, store)

/-! ## Chat route: per-invocation processing (route.ts) -/

/-- A tool-result block as the chat route pushes it (`is_error` absent in
the source means false). -/
structure ToolResultBlock where
  content : String
  is_error : Bool := false
  deriving Repr, DecidableEq

/-- Executor outcome from the route's point of view. -/
inductive ExecOutcome where
  | ok (result : ToolExecutionResult)
  | thrown (msg : String)

/-- Per-invocation processing of the chat route: input validation, the
extra date validation for event creation, then execution. Validation
failures short-circuit (no execution) and are pushed with
`is_error: true`; a thrown execution error is caught and pushed with
`is_error: true`; an executor result is pushed as-is (no `is_error`).
Returns the pushed block and whether execution was reached. -/
def handleToolCall (exec : String → ToolInput → ExecOutcome) (name : String)
    (input : ToolInput) (message : String) (cache : DateVerificationCache) :
    ToolResultBlock × Bool :=
  let validation := validateToolCall name input
  if !validation.valid then
    (⟨"❌ VALIDATION ERROR: " ++ validation.error.getD "", true⟩, false)
  else
    let dateValidation :=
      if name == "create_calendar_event" then
        validateEventDate cache (input.start_time.getD "") (some message)
      else ⟨true, none⟩
    if !dateValidation.valid then
      (⟨"❌ DATE VALIDATION ERROR: " ++ dateValidation.error.getD "", true⟩, false)
    else
      match exec name input with
      | ExecOutcome.ok result => (⟨result.content, false⟩, true)
      | ExecOutcome.thrown e => (⟨"Error: " ++ e, true⟩, true)

/-- C7: for a Sunday reference the "next week" branch computes a Monday
exactly 1 day later; for a Friday reference, a Monday exactly 3 days
later; in both cases the range ends on the Friday 4 days after that
Monday. -/
theorem nextWeek_sunday_friday (now : Nat) :
    (getDayOfWeek now = 0 →
      nextWeekMonday now = now + 1 * secondsPerDay ∧
      getDayOfWeek (nextWeekMonday now) = 1 ∧
      nextWeekFriday now = nextWeekMonday now + 4 * secondsPerDay ∧
      getDayOfWeek (nextWeekFriday now) = 5) ∧
    (getDayOfWeek now = 5 →
      nextWeekMonday now = now + 3 * secondsPerDay ∧
      getDayOfWeek (nextWeekMonday now) = 1 ∧
      nextWeekFriday now = nextWeekMonday now + 4 * secondsPerDay ∧
      getDayOfWeek (nextWeekFriday now) = 5) := by
  constructor
  · intro h
    unfold getDayOfWeek secondsPerDay at h
    unfold nextWeekFriday nextWeekMonday addDaysInUserTimezone getDayOfWeek secondsPerDay
    simp only [h]
    norm_num
    omega
  · intro h
    unfold getDayOfWeek secondsPerDay at h
    unfold nextWeekFriday nextWeekMonday addDaysInUserTimezone getDayOfWeek secondsPerDay
    simp only [h]
    norm_num
    omega

/-- Witness for C7: a concrete Sunday (1970-01-04) and a concrete Friday
(1970-01-02) instantiating `nextWeek_sunday_friday`. -/
theorem nextWeek_sunday_friday_witness :
    (getDayOfWeek (3 * 86400) = 0 ∧
      nextWeekMonday (3 * 86400) = 3 * 86400 + 1 * secondsPerDay ∧
      getDayOfWeek (nextWeekMonday (3 * 86400)) = 1) ∧
    (getDayOfWeek 86400 = 5 ∧
      nextWeekMonday 86400 = 86400 + 3 * secondsPerDay ∧
      getDayOfWeek (nextWeekMonday 86400) = 1) := by
  have hs := (nextWeek_sunday_friday (3 * 86400)).1 (by decide)
  have hf := (nextWeek_sunday_friday 86400).2 (by decide)
  exact ⟨⟨by decide, hs.1, hs.2.1⟩, ⟨by decide, hf.1, hf.2.1⟩⟩

/-- C1 counterexample: the user message names Monday, the ledger's only
entry for the start date records Tuesday (so no entry matches the
user-stated weekday), yet `validateEventDate` passes the call. -/
theorem validateEventDate_mismatched_weekday_passes :
    dayNamePatternTest "schedule it Monday" = true ∧
    isDateVerified [("2026-01-13", "Tuesday")] "2026-01-13" = true ∧
    containsSub ((toLowerStr "Tuesday").take 3).data (toLowerStr "schedule it Monday").data
      = false ∧
    validateEventDate [("2026-01-13", "Tuesday")] "2026-01-13T15:00:00"
        (some "schedule it Monday") = ⟨true, none⟩ :=
  ⟨by decide, by decide, by decide, by decide⟩

/-- C1 (amended): when the user message contains a weekday name, a
creation start instant is rejected (with the instruction to call the
date resolver first) exactly when the ledger has no entry for its ISO
date; any existing entry for that date passes the call, whether or not
its recorded weekday matches the user-stated one, and the rejection
short-circuits execution in the route with an error-flagged result. -/
theorem validateEventDate_requires_ledger_entry
    (cache : DateVerificationCache) (isoDateTime day isoDate : String)
    (hd : datePrefixMatch isoDateTime = some isoDate)
    (hw : dayNamePatternTest day = true) :
    (isDateVerified cache isoDate = false →
      validateEventDate cache isoDateTime (some day) =
        ⟨false, some (unverifiedDateError isoDate day)⟩) ∧
    (isDateVerified cache isoDate = true →
      validateEventDate cache isoDateTime (some day) = ⟨true, none⟩) ∧
    (∀ (exec : String → ToolInput → ExecOutcome) (input : ToolInput),
      input.start_time = some isoDateTime →
      (validateToolCall "create_calendar_event" input).valid = true →
      isDateVerified cache isoDate = false →
      handleToolCall exec "create_calendar_event" input day cache =
        (⟨"❌ DATE VALIDATION ERROR: " ++ unverifiedDateError isoDate day, true⟩, false)) := by
  have hreject : isDateVerified cache isoDate = false →
      validateEventDate cache isoDateTime (some day) =
        ⟨false, some (unverifiedDateError isoDate day)⟩ := by
    intro h
    unfold validateEventDate
    rw [hd]
    simp [hw, h]
  refine ⟨hreject, ?_, ?_⟩
  · intro h
    unfold validateEventDate
    rw [hd]
    simp only [hw, if_true, h, Bool.not_true, Bool.false_eq_true, if_false]
    split
    · split <;> rfl
    · rfl
  · intro exec input hst hv h
    unfold handleToolCall
    simp only [hv, Bool.not_true, Bool.false_eq_true, if_false, hst]
    simp [hreject h]

/-- C1 witness: with an empty ledger the creation on 2026-01-12 derived
from "next Monday" is rejected; once any entry for 2026-01-12 exists it
passes. -/
theorem validateEventDate_requires_ledger_entry_witness :
    validateEventDate [] "2026-01-12T15:00:00" (some "next Monday") =
      ⟨false, some (unverifiedDateError "2026-01-12" "next Monday")⟩ ∧
    validateEventDate [("2026-01-12", "Monday")] "2026-01-12T15:00:00" (some "next Monday") =
      ⟨true, none⟩ :=
  ⟨(validateEventDate_requires_ledger_entry [] "2026-01-12T15:00:00" "next Monday"
      "2026-01-12" (by decide) (by decide)).1 (by decide),
    (validateEventDate_requires_ledger_entry [("2026-01-12", "Monday")] "2026-01-12T15:00:00"
      "next Monday" "2026-01-12" (by decide) (by decide)).2.1 (by decide)⟩

set_option maxRecDepth 100000 in
/-- C2 (code defect): the business-week output of the date resolver for
reference 2026-01-01 contains the pair "Monday = 2026-01-05", yet the
recording regex extracts no pair from it (it needs the date to precede
the weekday on one line), so `executeGetDateInfo` leaves the ledger
empty; the single-date output, by contrast, is recorded. -/
theorem getDateInfo_nextWeek_records_nothing :
    extractDatePairs (getDateInfo_nextWeek (20454 * 86400)) = [] ∧
    containsSub ("Monday = 2026-01-05").data (getDateInfo_nextWeek (20454 * 86400)).data
      = true ∧
    (executeGetDateInfo [] (getDateInfo_nextWeek (20454 * 86400))).2 = [] ∧
    extractDatePairs (getDateInfo_singleDate (20458 * 86400)) = [("2026-01-05", "Monday")] ∧
    (executeGetDateInfo [] (getDateInfo_singleDate (20458 * 86400))).2 =
      [("2026-01-05", "Monday")] :=
  ⟨by decide, by decide, by decide, by decide, by decide⟩

/-- C3 counterexample: a `check_availability` call whose end instant is
strictly before its start instant (both pattern-valid) is accepted by
`validateToolCall`; the ordering check does not cover this tool. -/
theorem validateToolCall_checkAvailability_ignores_order :
    jsDateLe "2026-01-12T14:00:00" "2026-01-12T15:00:00" = true ∧
    validateToolCall "check_availability"
        { start_time := some "2026-01-12T15:00:00", end_time := some "2026-01-12T14:00:00" } =
      ⟨true, none⟩ :=
  ⟨by decide, by decide⟩

/-- C3 (amended): for `create_calendar_event` and for
`update_calendar_event` carrying both instants, pattern-valid pairs with
start before end are accepted and pairs with end at or before start are
rejected with both literal values echoed; `check_availability` checks
the pattern only and accepts either order. -/
theorem validateToolCall_time_ordering (s e : String) (ts te : Nat)
    (hs : isoPattern s = true) (he : isoPattern e = true)
    (hps : parseInUserTimezone s = some ts) (hpe : parseInUserTimezone e = some te) :
    (ts < te →
      validateToolCall "create_calendar_event" { start_time := some s, end_time := some e } =
        ⟨true, none⟩ ∧
      validateToolCall "update_calendar_event" { start_time := some s, end_time := some e } =
        ⟨true, none⟩) ∧
    (te ≤ ts →
      validateToolCall "create_calendar_event" { start_time := some s, end_time := some e } =
        ⟨false, some (invalidTimeRangeCreateError s e)⟩ ∧
      validateToolCall "update_calendar_event" { start_time := some s, end_time := some e } =
        ⟨false, some (invalidTimeRangeUpdateError s e)⟩) ∧
    validateToolCall "check_availability" { start_time := some s, end_time := some e } =
      ⟨true, none⟩ := by
  have hsne : (s == "") = false := by
    apply beq_eq_false_iff_ne.mpr
    intro h
    rw [h] at hs
    exact absurd hs (by decide)
  have hene : (e == "") = false := by
    apply beq_eq_false_iff_ne.mpr
    intro h
    rw [h] at he
    exact absurd he (by decide)
  have hjle : jsDateLe e s = decide (te ≤ ts) := by
    unfold jsDateLe
    rw [hps, hpe]
  refine ⟨?_, ?_, ?_⟩
  · intro h
    have hfalse : decide (te ≤ ts) = false := decide_eq_false (by omega)
    constructor <;>
      simp [validateToolCall, presentStr, hsne, hene, hs, he, hjle, hfalse]
  · intro h
    have htrue : decide (te ≤ ts) = true := decide_eq_true h
    constructor <;>
      simp [validateToolCall, presentStr, hsne, hene, hs, he, hjle, htrue]
  · simp [validateToolCall, presentStr, hsne, hene, hs, he]

/-- C3 witness: a concrete ordered pair is accepted by all three tools
and the inverted pair is rejected by create and update. -/
theorem validateToolCall_time_ordering_witness :
    validateToolCall "create_calendar_event"
        { start_time := some "2026-01-12T14:00:00", end_time := some "2026-01-12T15:00:00" } =
      ⟨true, none⟩ ∧
    validateToolCall "update_calendar_event"
        { start_time := some "2026-01-12T15:00:00", end_time := some "2026-01-12T14:00:00" } =
      ⟨false, some (invalidTimeRangeUpdateError "2026-01-12T15:00:00" "2026-01-12T14:00:00")⟩ := by
  have h1 := (validateToolCall_time_ordering "2026-01-12T14:00:00" "2026-01-12T15:00:00"
    1768226400 1768230000 (by decide) (by decide) (by decide) (by decide)).1 (by decide)
  have h2 := (validateToolCall_time_ordering "2026-01-12T15:00:00" "2026-01-12T14:00:00"
    1768230000 1768226400 (by decide) (by decide) (by decide) (by decide)).2.1 (by decide)
  exact ⟨h1.1, h2.2⟩

/-- The update branch's `updateCount === 0` test is equivalent to
`update_calendar_event` being absent from the called-tools list. -/
theorem updateFilterLengthZero (l : List String) :
    ((l.filter fun t => (["update_calendar_event"] : List String).contains t).length == 0) =
      !(l.contains "update_calendar_event") := by
  have hpred : ∀ t : String,
      ((["update_calendar_event"] : List String).contains t) = (t == "update_calendar_event") := by
    intro t
    by_cases h : t = "update_calendar_event" <;> simp [h, List.contains_cons]
  simp only [hpred]
  induction l with
  | nil => rfl
  | cons x xs ih =>
    simp only [List.filter_cons, List.contains_cons]
    by_cases hx : x = "update_calendar_event"
    · subst hx
      simp
    · have hb : (x == "update_calendar_event") = false := beq_eq_false_iff_ne.mpr hx
      have hb2 : ("update_calendar_event" == x) = false :=
        beq_eq_false_iff_ne.mpr (Ne.symm hx)
      simp [hb, hb2, ih]

/-- C4 counterexample: with only `update_calendar_event` called (and the
lookup tool never called), `validateActionCompleted` reports the update
action as completed, so validity does not require both tools. -/
theorem validateActionCompleted_update_without_lookup_valid :
    validateActionCompleted (some "update") ["update_calendar_event"] none none =
      ⟨true, none⟩ ∧
    "get_calendar_events" ∉ (["update_calendar_event"] : List String) :=
  ⟨by decide, by decide⟩

/-- C4 (amended): for the update classification the verifier is valid
exactly when `update_calendar_event` appears among the called tools
(`get_calendar_events` only selects between the two retry messages); in
particular a history of only `get_calendar_events` is invalid and adding
one `update_calendar_event` call makes it valid. -/
theorem validateActionCompleted_update_valid_iff
    (toolsCalled : List String) (userMessage lastToolResult : Option String) :
    (validateActionCompleted (some "update") toolsCalled userMessage lastToolResult).valid =
      toolsCalled.contains "update_calendar_event" ∧
    (validateActionCompleted (some "update") ["get_calendar_events"] userMessage
        lastToolResult).valid = false ∧
    (validateActionCompleted (some "update")
        ["get_calendar_events", "update_calendar_event"] userMessage lastToolResult).valid =
      true := by
  have main : ∀ l : List String,
      (validateActionCompleted (some "update") l userMessage lastToolResult).valid =
        l.contains "update_calendar_event" := by
    intro l
    have hf := updateFilterLengthZero l
    unfold validateActionCompleted
    cases hc : l.contains "update_calendar_event" with
    | false =>
      rw [hc, Bool.not_false] at hf
      simp only [hf, show (("update" : String) == "read") = false by decide,
        show (("update" : String) == "update") = true by decide]
      simp only [Bool.false_eq_true, if_false, Bool.true_and, if_true]
      split <;> rfl
    | true =>
      rw [hc, Bool.not_true] at hf
      simp only [hf, show (("update" : String) == "read") = false by decide,
        show (("update" : String) == "update") = true by decide]
      simp [show (("update" : String) == "delete") = false by decide,
        show (("update" : String) == "create") = false by decide]
  exact ⟨main toolsCalled, by rw [main]; decide, by rw [main]; decide⟩

/-- C5 (code defect): `validateActionCompleted` has no branch for the
attendees classification, so it reports the action completed even when
no tool at all was called, although the source's own `REQUIRED_TOOLS`
table demands the lookup plus an attendee tool. -/
theorem validateActionCompleted_attendees_unenforced :
    validateActionCompleted (some "attendees") [] none none = ⟨true, none⟩ ∧
    REQUIRED_TOOLS "attendees" = ["get_calendar_events", "add_attendee", "remove_attendee"] :=
  ⟨by decide, by decide⟩

set_option maxRecDepth 100000 in
/-- C6 counterexample: the relative-date rejection of
`get_calendar_events` is produced inside the executor and pushed by the
route as an ordinary tool result, so its `is_error` flag is false. -/
theorem relativeDate_rejection_not_flagged :
    handleToolCall
        (fun _ input => ExecOutcome.ok (executeGetCalendarEvents (fun _ _ => []) 0 input))
        "get_calendar_events" { start_date := some "next Monday" } "msg" [] =
      (⟨relativeDateError, false⟩, true) := by
  decide

/-- C6 (amended): failures of `validateToolCall` and of the creation
date validation are returned as tool results flagged `is_error: true`
with execution skipped; a thrown execution error is caught and flagged
`is_error: true`; an executor-produced result (including the
relative-date rejection text) is fed back unflagged — nothing is thrown
out of the pipeline or dropped. -/
theorem toolResult_error_flag_routing (exec : String → ToolInput → ExecOutcome)
    (name : String) (input : ToolInput) (message : String)
    (cache : DateVerificationCache) :
    ((validateToolCall name input).valid = false →
      handleToolCall exec name input message cache =
        (⟨"❌ VALIDATION ERROR: " ++ (validateToolCall name input).error.getD "", true⟩,
          false)) ∧
    ((validateToolCall name input).valid = true → name = "create_calendar_event" →
      (validateEventDate cache (input.start_time.getD "") (some message)).valid = false →
      handleToolCall exec name input message cache =
        (⟨"❌ DATE VALIDATION ERROR: " ++
            (validateEventDate cache (input.start_time.getD "") (some message)).error.getD "",
          true⟩, false)) ∧
    (∀ r, (validateToolCall name input).valid = true →
      (name = "create_calendar_event" →
        (validateEventDate cache (input.start_time.getD "") (some message)).valid = true) →
      exec name input = ExecOutcome.ok r →
      handleToolCall exec name input message cache = (⟨r.content, false⟩, true)) ∧
    (∀ er, (validateToolCall name input).valid = true →
      (name = "create_calendar_event" →
        (validateEventDate cache (input.start_time.getD "") (some message)).valid = true) →
      exec name input = ExecOutcome.thrown er →
      handleToolCall exec name input message cache = (⟨"Error: " ++ er, true⟩, true)) := by
  refine ⟨?_, ?_, ?_, ?_⟩
  · intro h
    unfold handleToolCall
    simp [h]
  · intro hv hname hdv
    unfold handleToolCall
    subst hname
    simp [hv, hdv]
  · intro r hv hcreate hexec
    unfold handleToolCall
    by_cases hname : name = "create_calendar_event"
    · subst hname
      simp [hv, hcreate rfl, hexec]
    · have hb : (name == "create_calendar_event") = false := beq_eq_false_iff_ne.mpr hname
      simp [hv, hb, hexec]
  · intro er hv hcreate hexec
    unfold handleToolCall
    by_cases hname : name = "create_calendar_event"
    · subst hname
      simp [hv, hcreate rfl, hexec]
    · have hb : (name == "create_calendar_event") = false := beq_eq_false_iff_ne.mpr hname
      simp [hv, hb, hexec]

/-- C6 witness: a creation call missing its times is pushed flagged as an
error without executing, and a thrown store error on a delete call comes
back flagged as an error. -/
theorem toolResult_error_flag_routing_witness :
    handleToolCall (fun _ _ => ExecOutcome.thrown "boom") "create_calendar_event" { }
        "msg" [] =
      (⟨"❌ VALIDATION ERROR: " ++
          (validateToolCall "create_calendar_event" { }).error.getD "", true⟩, false) ∧
    handleToolCall (fun _ _ => ExecOutcome.thrown "boom") "delete_calendar_event" { }
        "msg" [] =
      (⟨"Error: " ++ "boom", true⟩, true) := by
  constructor
  · exact (toolResult_error_flag_routing (fun _ _ => ExecOutcome.thrown "boom")
      "create_calendar_event" { } "msg" []).1 (by decide)
  · exact (toolResult_error_flag_routing (fun _ _ => ExecOutcome.thrown "boom")
      "delete_calendar_event" { } "msg" []).2.2.2 "boom" (by decide)
      (fun h => absurd h (by decide)) rfl

/-- The seed of a `max` fold is a lower bound of the result. -/
theorem init_le_foldl_max (l : List Nat) : ∀ a : Nat, a ≤ l.foldl max a := by
  induction l with
  | nil => intro a; exact le_refl a
  | cons y ys ih =>
    intro a
    exact le_trans (Nat.le_max_left a y) (ih (max a y))

/-- Every element of the list is a lower bound of a `max` fold. -/
theorem le_foldl_max (l : List Nat) : ∀ a : Nat, ∀ x ∈ l, x ≤ l.foldl max a := by
  induction l with
  | nil => intro a x hx; cases hx
  | cons y ys ih =>
    intro a x hx
    rcases List.mem_cons.mp hx with rfl | hx
    · exact le_trans (Nat.le_max_right a x) (init_le_foldl_max ys (max a x))
    · exact ih (max a y) x hx

/-- A `max` fold yields its seed or an element. -/
theorem foldl_max_mem (l : List Nat) : ∀ a : Nat, l.foldl max a = a ∨ l.foldl max a ∈ l := by
  induction l with
  | nil => intro a; exact Or.inl rfl
  | cons y ys ih =>
    intro a
    have hfold : List.foldl max a (y :: ys) = ys.foldl max (max a y) := rfl
    rcases ih (max a y) with h | h
    · rcases Nat.le_total a y with hay | hya
      · right
        rw [hfold, h, Nat.max_eq_right hay]
        exact List.mem_cons_self y ys
      · left
        rw [hfold, h, Nat.max_eq_left hya]
    · right
      rw [hfold]
      exact List.mem_cons_of_mem y h

/-- A `max` fold over a nonempty list of naturals with seed 0 (which is
how `Math.max(...ends)` is modelled) is attained by an element. -/
theorem foldl_max_zero_mem (l : List Nat) (h : l ≠ []) : l.foldl max 0 ∈ l := by
  rcases foldl_max_mem l 0 with h0 | hm
  · cases l with
    | nil => exact absurd rfl h
    | cons y ys =>
      have hy : y ≤ (y :: ys).foldl max 0 :=
        le_foldl_max (y :: ys) 0 y (List.mem_cons_self y ys)
      rw [h0] at hy
      rw [h0, ← Nat.le_zero.mp hy]
      exact List.mem_cons_self y ys
  · exact hm

/-- C8: a timed same-day event is reported as a conflict exactly when
`requestedStart < existingEnd` and `requestedEnd > existingStart` (so a
back-to-back request starting at an existing end is available), an event
lacking a timed start or end always conflicts, availability holds
exactly when no event conflicts, and on conflict the suggested start is
the latest end (day end for untimed ends) among the overlapping events. -/
theorem checkAvailability_conflict_rule (events : List CalendarEvent)
    (startTime endTime dayEnd : Nat) :
    (∀ (ev : CalendarEvent) (es ee : Nat), ev.startTime = some es → ev.endTime = some ee →
      (isConflict startTime endTime ev = true ↔ (startTime < ee ∧ endTime > es))) ∧
    (∀ ev : CalendarEvent, ev.startTime = none ∨ ev.endTime = none →
      isConflict startTime endTime ev = true) ∧
    (checkAvailability events startTime endTime dayEnd = AvailabilityOutcome.available ↔
      ∀ ev ∈ events, isConflict startTime endTime ev = false) ∧
    (∀ (cs : List CalendarEvent) (sug : Nat),
      checkAvailability events startTime endTime dayEnd =
        AvailabilityOutcome.conflict cs sug →
      cs = events.filter (isConflict startTime endTime) ∧
      (∀ c ∈ cs, c.endTime.getD dayEnd ≤ sug) ∧
      sug ∈ cs.map fun c => c.endTime.getD dayEnd) := by
  refine ⟨?_, ?_, ?_, ?_⟩
  · intro ev es ee hs he
    unfold isConflict
    rw [hs, he]
    simp
  · intro ev h
    unfold isConflict
    rcases h with h | h
    · rw [h]
    · rw [h]
      cases ev.startTime <;> rfl
  · constructor
    · intro h ev hev
      unfold checkAvailability at h
      by_cases hemp : (events.filter (isConflict startTime endTime)).isEmpty
      · have hnil : events.filter (isConflict startTime endTime) = [] := by
          simpa using hemp
        cases hval : isConflict startTime endTime ev
        · rfl
        · exfalso
          have : ev ∈ events.filter (isConflict startTime endTime) :=
            List.mem_filter.mpr ⟨hev, hval⟩
          rw [hnil] at this
          cases this
      · simp only [hemp, Bool.false_eq_true, if_false] at h
        cases h
    · intro hall
      unfold checkAvailability
      have hnil : events.filter (isConflict startTime endTime) = [] := by
        apply List.filter_eq_nil_iff.mpr
        intro a ha
        simp [hall a ha]
      rw [hnil]
      rfl
  · intro cs sug h
    unfold checkAvailability at h
    by_cases hemp : (events.filter (isConflict startTime endTime)).isEmpty
    · simp only [hemp, if_true] at h
      cases h
    · simp only [hemp, Bool.false_eq_true, if_false, AvailabilityOutcome.conflict.injEq] at h
      obtain ⟨hcs, hsug⟩ := h
      subst hcs
      refine ⟨rfl, ?_, ?_⟩
      · intro c hc
        rw [← hsug]
        exact le_foldl_max _ 0 _ (List.mem_map_of_mem _ hc)
      · rw [← hsug]
        apply foldl_max_zero_mem
        intro hmapnil
        apply hemp
        have : events.filter (isConflict startTime endTime) = [] := by
          rcases hfil : events.filter (isConflict startTime endTime) with _ | ⟨x, xs⟩
          · rfl
          · rw [hfil] at hmapnil
            cases hmapnil
        simp [this]

/-- C8 witness: against an existing 2:00-3:00pm event, 2:30-3:30pm is a
conflict with 3:00pm suggested, and the back-to-back 3:00-4:00pm request
is available. -/
theorem checkAvailability_conflict_rule_witness :
    checkAvailability [⟨"e1", "Meeting", some 50400, some 54000, [], none⟩]
        54000 57600 86399 = AvailabilityOutcome.available ∧
    checkAvailability [⟨"e1", "Meeting", some 50400, some 54000, [], none⟩]
        52200 55800 86399 =
      AvailabilityOutcome.conflict [⟨"e1", "Meeting", some 50400, some 54000, [], none⟩]
        54000 := by
  constructor
  · exact ((checkAvailability_conflict_rule
      [⟨"e1", "Meeting", some 50400, some 54000, [], none⟩] 54000 57600 86399).2.2.1).mpr
      (by decide)
  · decide

/-- Replacing the found event by id in the store keeps it the first hit
of a subsequent lookup, provided the replacement keeps the id. -/
theorem find?_map_replace (store : List CalendarEvent) (eventId : String)
    (ev updated : CalendarEvent)
    (h : store.find? (fun e => e.id == eventId) = some ev)
    (hid : updated.id = ev.id) :
    (store.map fun e => if e.id == eventId then updated else e).find?
      (fun e => e.id == eventId) = some updated := by
  induction store with
  | nil => simp at h
  | cons x xs ih =>
    rw [List.map_cons]
    by_cases hx : (x.id == eventId) = true
    · have hev : x = ev := by
        rw [@List.find?_cons_of_pos CalendarEvent (fun e => e.id == eventId) x xs hx] at h
        exact Option.some.inj h
      have hup : (updated.id == eventId) = true := by
        rw [hid, ← hev]
        exact hx
      rw [if_pos hx]
      exact @List.find?_cons_of_pos CalendarEvent (fun e => e.id == eventId) updated _ hup
    · rw [@List.find?_cons_of_neg CalendarEvent (fun e => e.id == eventId) x xs hx] at h
      rw [if_neg hx]
      rw [@List.find?_cons_of_neg CalendarEvent (fun e => e.id == eventId) x _ hx]
      exact ih h

/-- C9: adding an attendee whose email is already on the event fails
before any store write (result `modifiedEvents = false`, store
unchanged); a fresh email succeeds once and then fails on the second
identical call, leaving the attendee list length unchanged after it. -/
theorem addAttendee_idempotent_refusal (store : List CalendarEvent)
    (eventId email : String) (ev : CalendarEvent)
    (hfind : store.find? (fun e => e.id == eventId) = some ev) :
    (ev.attendees.any (fun a => a.email == email) = true →
      executeAddAttendee store eventId email =
        (⟨"Error executing add_attendee: Attendee " ++ email ++
            " is already invited to this event", false⟩, store)) ∧
    (ev.attendees.any (fun a => a.email == email) = false →
      (executeAddAttendee store eventId email).1.modifiedEvents = true ∧
      (executeAddAttendee store eventId email).2.find? (fun e => e.id == eventId) =
        some { ev with attendees := ev.attendees ++ [{ email := email }] } ∧
      ({ ev with attendees := ev.attendees ++ [{ email := email }] } :
        CalendarEvent).attendees.length = ev.attendees.length + 1 ∧
      (executeAddAttendee (executeAddAttendee store eventId email).2 eventId email).1 =
        ⟨"Error executing add_attendee: Attendee " ++ email ++
          " is already invited to this event", false⟩ ∧
      (executeAddAttendee (executeAddAttendee store eventId email).2 eventId email).2 =
        (executeAddAttendee store eventId email).2) := by
  constructor
  · intro hdup
    unfold executeAddAttendee addEventAttendee
    rw [hfind]
    simp [hdup]
    all_goals rfl
  · intro hnew
    have hstore2 : (executeAddAttendee store eventId email).2 =
        store.map fun e => if e.id == eventId then
          { ev with attendees := ev.attendees ++ [{ email := email }] } else e := by
      unfold executeAddAttendee addEventAttendee
      rw [hfind]
      simp [hnew]
    have hmod : (executeAddAttendee store eventId email).1.modifiedEvents = true := by
      unfold executeAddAttendee addEventAttendee
      rw [hfind]
      simp [hnew]
    have hrepl := find?_map_replace store eventId ev
      { ev with attendees := ev.attendees ++ [{ email := email }] } hfind rfl
    have hfind2 : (executeAddAttendee store eventId email).2.find?
        (fun e => e.id == eventId) =
        some { ev with attendees := ev.attendees ++ [{ email := email }] } := by
      rw [hstore2]
      exact hrepl
    have hany2 : ({ ev with attendees := ev.attendees ++ [{ email := email }] } :
        CalendarEvent).attendees.any (fun a => a.email == email) = true := by
      simp
    refine ⟨hmod, hfind2, by simp, ?_, ?_⟩
    · rw [hstore2]
      unfold executeAddAttendee addEventAttendee
      rw [hrepl]
      simp [hany2]
      all_goals rfl
    · rw [hstore2]
      unfold executeAddAttendee addEventAttendee
      rw [hrepl]
      simp [hany2]

/-- C9 witness: on a one-event store, adding a fresh email succeeds and
the identical second call errors with the store unchanged; adding an
email already present errors immediately. -/
theorem addAttendee_idempotent_refusal_witness :
    executeAddAttendee [⟨"e1", "Standup", none, none, [⟨"a@x.com", none, none⟩], none⟩]
        "e1" "a@x.com" =
      (⟨"Error executing add_attendee: Attendee " ++ "a@x.com" ++
          " is already invited to this event", false⟩,
        [⟨"e1", "Standup", none, none, [⟨"a@x.com", none, none⟩], none⟩]) ∧
    (executeAddAttendee [⟨"e1", "Standup", none, none, [⟨"a@x.com", none, none⟩], none⟩]
        "e1" "b@x.com").1.modifiedEvents = true ∧
    (executeAddAttendee
        (executeAddAttendee
          [⟨"e1", "Standup", none, none, [⟨"a@x.com", none, none⟩], none⟩]
          "e1" "b@x.com").2 "e1" "b@x.com").1 =
      ⟨"Error executing add_attendee: Attendee " ++ "b@x.com" ++
        " is already invited to this event", false⟩ := by
  have h1 := (addAttendee_idempotent_refusal
    [⟨"e1", "Standup", none, none, [⟨"a@x.com", none, none⟩], none⟩] "e1" "a@x.com"
    ⟨"e1", "Standup", none, none, [⟨"a@x.com", none, none⟩], none⟩ (by decide)).1 (by decide)
  have h2 := (addAttendee_idempotent_refusal
    [⟨"e1", "Standup", none, none, [⟨"a@x.com", none, none⟩], none⟩] "e1" "b@x.com"
    ⟨"e1", "Standup", none, none, [⟨"a@x.com", none, none⟩], none⟩ (by decide)).2 (by decide)
  exact ⟨h1, h2.1, h2.2.2.2.1⟩

/-- Specialization of `isoPatternList` at an explicit 19-character list. -/
theorem isoPatternList_cons (y1 y2 y3 y4 a m1 m2 b d1 d2 t h1 h2 c1 n1 n2 c2 x1 x2 : Char) :
    isoPatternList [y1, y2, y3, y4, a, m1, m2, b, d1, d2, t, h1, h2, c1, n1, n2, c2, x1, x2] =
      (y1.isDigit && y2.isDigit && y3.isDigit && y4.isDigit && a == '-' &&
        m1.isDigit && m2.isDigit && b == '-' && d1.isDigit && d2.isDigit &&
        t == 'T' && h1.isDigit && h2.isDigit && c1 == ':' && n1.isDigit && n2.isDigit &&
        c2 == ':' && x1.isDigit && x2.isDigit) := rfl

/-- Specialization of `parseTimestampList` at an explicit 19-character
list. -/
theorem parseTimestampList_cons
    (y1 y2 y3 y4 a m1 m2 b d1 d2 t h1 h2 c1 n1 n2 c2 x1 x2 : Char) :
    parseTimestampList
        [y1, y2, y3, y4, a, m1, m2, b, d1, d2, t, h1, h2, c1, n1, n2, c2, x1, x2] =
      (if isoPatternList
          [y1, y2, y3, y4, a, m1, m2, b, d1, d2, t, h1, h2, c1, n1, n2, c2, x1, x2] then
        (if 1 ≤ twoDigits m1 m2 && twoDigits m1 m2 ≤ 12 && 1 ≤ twoDigits d1 d2 &&
            twoDigits d1 d2 ≤ daysInMonth (fourDigits y1 y2 y3 y4) (twoDigits m1 m2) &&
            twoDigits h1 h2 ≤ 23 && twoDigits n1 n2 ≤ 59 && twoDigits x1 x2 ≤ 59 then
          some (daysFromCivil (fourDigits y1 y2 y3 y4) (twoDigits m1 m2) (twoDigits d1 d2) *
            secondsPerDay + twoDigits h1 h2 * 3600 + twoDigits n1 n2 * 60 + twoDigits x1 x2)
        else none)
      else none) := rfl

/-- C10: without a start_date the query range starts at the start of the
current day and without an end_date it ends exactly 7 days after the
current instant; a supplied date-only string (10 characters) is expanded
to 00:00:00 resp. 23:59:59 of that civil day before querying. -/
theorem getCalendarEvents_range_defaults
    (now : Nat) (input : ToolInput)
    (y1 y2 y3 y4 m1 m2 d1 d2 : Char)
    (hy : (y1.isDigit && y2.isDigit && y3.isDigit && y4.isDigit) = true)
    (hm : (m1.isDigit && m2.isDigit) = true)
    (hd : (d1.isDigit && d2.isDigit) = true)
    (hrange : (1 ≤ twoDigits m1 m2 && twoDigits m1 m2 ≤ 12 && 1 ≤ twoDigits d1 d2 &&
        twoDigits d1 d2 ≤ daysInMonth (fourDigits y1 y2 y3 y4) (twoDigits m1 m2)) = true) :
    (input.start_date = none →
      queryStartDate input now = some (startOfDayInUserTimezone now)) ∧
    startOfDayInUserTimezone now = now / secondsPerDay * secondsPerDay ∧
    (input.end_date = none →
      queryEndDate input now = some (addDaysInUserTimezone now 7)) ∧
    addDaysInUserTimezone now 7 = now + 7 * secondsPerDay ∧
    queryStartDate
        { start_date := some (String.mk [y1, y2, y3, y4, '-', m1, m2, '-', d1, d2]) } now =
      some (daysFromCivil (fourDigits y1 y2 y3 y4) (twoDigits m1 m2) (twoDigits d1 d2) *
        secondsPerDay) ∧
    queryEndDate
        { end_date := some (String.mk [y1, y2, y3, y4, '-', m1, m2, '-', d1, d2]) } now =
      some (daysFromCivil (fourDigits y1 y2 y3 y4) (twoDigits m1 m2) (twoDigits d1 d2) *
        secondsPerDay + 86399) := by
  simp only [Bool.and_eq_true] at hy hm hd hrange
  obtain ⟨⟨⟨hy1, hy2⟩, hy3⟩, hy4⟩ := hy
  obtain ⟨hm1, hm2⟩ := hm
  obtain ⟨hd1, hd2⟩ := hd
  refine ⟨?_, rfl, ?_, rfl, ?_, ?_⟩
  · intro h
    unfold queryStartDate presentStr
    rw [h]
  · intro h
    unfold queryEndDate presentStr
    rw [h]
  · unfold queryStartDate presentStr
    simp only [show (String.mk [y1, y2, y3, y4, '-', m1, m2, '-', d1, d2] == "") = false
      from rfl, Bool.false_eq_true, if_false]
    show (if (10 : Nat) ≤ 10 then _ else _) = _
    rw [if_pos (by omega)]
    unfold parseInUserTimezone
    show parseTimestampList
      [y1, y2, y3, y4, '-', m1, m2, '-', d1, d2, 'T', '0', '0', ':', '0', '0', ':', '0', '0']
      = _
    rw [parseTimestampList_cons]
    rw [if_pos (by
      rw [isoPatternList_cons]
      simp only [hy1, hy2, hy3, hy4, hm1, hm2, hd1, hd2]
      decide)]
    rw [if_pos (by
      simp only [Bool.and_eq_true, decide_eq_true_eq]
      exact ⟨⟨⟨⟨⟨⟨decide_eq_true_eq.mp hrange.1.1.1, decide_eq_true_eq.mp hrange.1.1.2⟩,
        decide_eq_true_eq.mp hrange.1.2⟩, decide_eq_true_eq.mp hrange.2⟩, by decide⟩,
        by decide⟩, by decide⟩)]
    have h00 : twoDigits '0' '0' = 0 := by decide
    simp only [h00, Option.some.injEq]
    omega
  · unfold queryEndDate presentStr
    simp only [show (String.mk [y1, y2, y3, y4, '-', m1, m2, '-', d1, d2] == "") = false
      from rfl, Bool.false_eq_true, if_false]
    show (if (10 : Nat) ≤ 10 then _ else _) = _
    rw [if_pos (by omega)]
    unfold parseInUserTimezone
    show parseTimestampList
      [y1, y2, y3, y4, '-', m1, m2, '-', d1, d2, 'T', '2', '3', ':', '5', '9', ':', '5', '9']
      = _
    rw [parseTimestampList_cons]
    rw [if_pos (by
      rw [isoPatternList_cons]
      simp only [hy1, hy2, hy3, hy4, hm1, hm2, hd1, hd2]
      decide)]
    rw [if_pos (by
      simp only [Bool.and_eq_true, decide_eq_true_eq]
      exact ⟨⟨⟨⟨⟨⟨decide_eq_true_eq.mp hrange.1.1.1, decide_eq_true_eq.mp hrange.1.1.2⟩,
        decide_eq_true_eq.mp hrange.1.2⟩, decide_eq_true_eq.mp hrange.2⟩, by decide⟩,
        by decide⟩, by decide⟩)]
    have h23 : twoDigits '2' '3' = 23 := by decide
    have h59 : twoDigits '5' '9' = 59 := by decide
    rw [h23, h59]

/-- C10 witness: the defaults and the expansion of the concrete date-only
string 2026-01-12. -/
theorem getCalendarEvents_range_defaults_witness :
    queryStartDate { } 123456 = some (startOfDayInUserTimezone 123456) ∧
    queryEndDate { } 123456 = some (123456 + 7 * secondsPerDay) ∧
    queryStartDate { start_date := some "2026-01-12" } 123456 = some (20465 * 86400) ∧
    queryEndDate { end_date := some "2026-01-12" } 123456 = some (20465 * 86400 + 86399) := by
  have h := getCalendarEvents_range_defaults 123456 { } '2' '0' '2' '6' '0' '1' '1' '2'
    (by decide) (by decide) (by decide) (by decide)
  refine ⟨h.1 rfl, ?_, ?_, ?_⟩
  · exact (h.2.2.1 rfl).trans (congrArg some h.2.2.2.1)
  · have hq := h.2.2.2.2.1
    rw [show String.mk ['2', '0', '2', '6', '-', '0', '1', '-', '1', '2'] = "2026-01-12"
      from rfl] at hq
    rw [hq]
    decide
  · have hq := h.2.2.2.2.2
    rw [show String.mk ['2', '0', '2', '6', '-', '0', '1', '-', '1', '2'] = "2026-01-12"
      from rfl] at hq
    rw [hq]
    decide

end CalAssistant
